import Mathlib

/-!
Verification development for the E15190-E14030 neutron-wall calibration code
(`scripts/calibrate.cpp` and `scripts/src/ParamReader.cpp`).

Numeric model: C++ `double` values are embedded as exact rationals `ℚ`.
Where the code can produce a non-finite double (division by zero), values are
embedded as `EDouble := Option ℚ`, with `none` standing for a non-finite
double (`NaN` or `±Inf`); the arithmetic operations propagate `none`
absorbingly, which matches IEEE behaviour on the data flow of this program
(a non-finite value never reaches a denominator position here).
-/

/-- Extended double: `some q` is a finite double of exact value `q`;
`none` is a non-finite double (`NaN` or `±Inf`). -/
abbrev EDouble := Option ℚ

/-- Addition on extended doubles; any non-finite operand is absorbing. -/
def eAdd : EDouble → EDouble → EDouble
  | some a, some b => some (a + b)
  | _, _ => none

/-- Subtraction on extended doubles; any non-finite operand is absorbing. -/
def eSub : EDouble → EDouble → EDouble
  | some a, some b => some (a - b)
  | _, _ => none

/-- Multiplication on extended doubles; any non-finite operand is absorbing. -/
def eMul : EDouble → EDouble → EDouble
  | some a, some b => some (a * b)
  | _, _ => none

/-- Division on extended doubles: a finite value divided by zero is
non-finite (`±Inf` when the numerator is nonzero, `NaN` when it is zero);
any non-finite operand is absorbing. -/
def eDiv : EDouble → EDouble → EDouble
  | some a, some b => if b = 0 then none else some (a / b)
  | _, _ => none

/-- A run-validity record: a closed run-number range together with the
calibration payload it carries.  This is the element type of the per-unit
series scanned by `NWPositionCalibParamReader::load`,
`NWTimeOfFlightCalibParamReader::load` and
`NWPulseShapeDiscriminationParamReader::get_bar_params`. -/
structure ValidityRecord (P : Type) where
  run_start : Int
  run_end : Int
  payload : P
deriving DecidableEq

/-- The run-range scan shared by all three loaders in `ParamReader.cpp`:
walk the series in stored order and return the first record whose closed
range `[run_start, run_end]` contains `run`
(`if (run >= run_start && run <= run_end) { ...; break; }`). -/
def resolveRecord {P : Type} (run : Int) : List (ValidityRecord P) → Option (ValidityRecord P)
  | [] => none
  | rec :: rest =>
    if rec.run_start ≤ run ∧ run ≤ rec.run_end then some rec else resolveRecord run rest

/-- Association-list lookup for the `(bar, parameter-name) → double` map
`param` of `NWPositionCalibParamReader`. -/
def lookupParam : List ((Int × String) × ℚ) → (Int × String) → Option ℚ
  | [], _ => none
  | (k, v) :: rest, key => if k = key then some v else lookupParam rest key

/-- Map update `param[key] = v` (overwrite if present, append if absent). -/
def setParam : List ((Int × String) × ℚ) → (Int × String) → ℚ → List ((Int × String) × ℚ)
  | [], key, v => [(key, v)]
  | (k, w) :: rest, key, v =>
    if k = key then (key, v) :: rest else (k, w) :: setParam rest key v

/-- The position-calibration parameter store.  The container backing the
`param` member is declared in `ParamReader.h`, which is not part of the
sources here; only its use sites in `ParamReader.cpp` are.  It is modelled
as a finite map from `(bar, parameter-name)` keys to scalars. -/
structure NWPositionCalibParamReader where
  param : List ((Int × String) × ℚ)
deriving DecidableEq

/-- Modelled from the spec: `NWPositionCalibParamReader::get(bar, par)`
returns the scalar bound to `(bar, par)`, or a silent numeric default of
zero when that key was never populated, and the store is read-only after
load ("constructed once at load time ...; immutable thereafter"), so the
call returns the store unchanged.  (The declaration of the `param`
container lives in `ParamReader.h`, which is missing from the sources;
the body in `ParamReader.cpp` is `return this->param[{bar, par}];`.) -/
def NWPositionCalibParamReader.get (s : NWPositionCalibParamReader) (bar : Int)
    (par : String) : ℚ × NWPositionCalibParamReader :=
  ((lookupParam s.param (bar, par)).getD 0, s)

/-- The per-bar parameter-resolution loop of
`NWPositionCalibParamReader::load`: for every bar entry of the JSON data,
scan its run-range records in stored order and, on the first record whose
range contains `run`, store `parameters[0]` under `"p0"` and
`parameters[1]` under `"p1"` for that bar. -/
def NWPositionCalibParamReader.load
    (json_data : List (Int × List (ValidityRecord (ℚ × ℚ)))) (run : Int)
    (s : NWPositionCalibParamReader) : NWPositionCalibParamReader :=
  json_data.foldl (fun st entry =>
    match resolveRecord run entry.2 with
    | some rec =>
      ⟨setParam (setParam st.param (entry.1, "p0") rec.payload.1) (entry.1, "p1") rec.payload.2⟩
    | none => st) s

/-- Threaded sequence of `get` calls against the store, recording the store
state handed to the next call. -/
def applyGets (s : NWPositionCalibParamReader) : List (Int × String) → NWPositionCalibParamReader
  | [] => s
  | k :: ks => applyGets (NWPositionCalibParamReader.get s k.1 k.2).2 ks

/-- Conversion of a C++ double to int: truncation toward zero. -/
def truncToInt (q : ℚ) : Int := Int.tdiv q.num (q.den : Int)

/-- Function `get_position` from `calibrate.cpp`: the position calibration.  Note
that the source stores the `double` results of `get` into `int` locals
(`int p0 = nw_pcalib.get(bar, "p0"); int p1 = nw_pcalib.get(bar, "p1");`),
truncating both calibration scalars toward zero before use. -/
def get_position (nw_pcalib : NWPositionCalibParamReader) (bar : Int)
    (time_L time_R : ℚ) : ℚ :=
  let r0 := nw_pcalib.get bar "p0"
  let p0 : Int := truncToInt r0.1
  let r1 := r0.2.get bar "p1"
  let p1 : Int := truncToInt r1.1
  (p0 : ℚ) + (p1 : ℚ) * (time_L - time_R)

/-- The pulse-shape-discrimination parameter reader, as consumed by
`get_psd`: per-bar fast-vs-total response curves and position-dependent
centroid curves (the built `ROOT::Math::Interpolator` objects, modelled as
total functions `ℚ → ℚ`: evaluation of a built interpolator on finite
knots is finite), plus the per-bar PCA mean, components and x-peaks. -/
structure NWPulseShapeDiscriminationParamReader where
  gamma_fast_total_L : Int → ℚ → ℚ
  neutron_fast_total_L : Int → ℚ → ℚ
  gamma_fast_total_R : Int → ℚ → ℚ
  neutron_fast_total_R : Int → ℚ → ℚ
  gamma_vpsd_L : Int → ℚ → ℚ
  neutron_vpsd_L : Int → ℚ → ℚ
  gamma_vpsd_R : Int → ℚ → ℚ
  neutron_vpsd_R : Int → ℚ → ℚ
  pca_mean : Int → ℚ × ℚ
  pca_components : Int → (ℚ × ℚ) × (ℚ × ℚ)
  pca_xpeaks : Int → ℚ × ℚ

/-- The bad-data gate of `get_psd` in `calibrate.cpp`
(`total_L < 0 || total_R < 0 || fast_L < 0 || fast_R < 0 || total_L > 4097
|| total_R > 4097 || fast_L > 4097 || fast_R > 4097 || pos < -120 ||
pos > 120`). -/
abbrev bad_psd_input (total_L total_R fast_L fast_R pos : ℚ) : Prop :=
  total_L < 0 ∨ total_R < 0 ∨ fast_L < 0 ∨ fast_R < 0 ∨
  4097 < total_L ∨ 4097 < total_R ∨ 4097 < fast_L ∨ 4097 < fast_R ∨
  pos < -120 ∨ 120 < pos

/-- Function `get_psd` from `calibrate.cpp`: the particle-identification transform.
The curve evaluations (`->Eval(...)`) are reads of the reader's curve
fields; the second block of `gamma_L/neutron_L/gamma_R/neutron_R`
reassignments of the source is rendered with fresh names `*_2`.  The
divisions are performed on `EDouble`, so a zero denominator yields the
non-finite value `none`, which then propagates.  `pca_x`/`pca_y` are
computed but, as in the source, never used in the returned pair. -/
def get_psd (psd_reader : NWPulseShapeDiscriminationParamReader) (bar : Int)
    (total_L total_R fast_L fast_R pos : ℚ) : EDouble × EDouble :=
  if bad_psd_input total_L total_R fast_L fast_R pos then
    (some (-9999 : ℚ), some (-9999 : ℚ))
  else
    let gamma_L := psd_reader.gamma_fast_total_L bar total_L
    let neutron_L := psd_reader.neutron_fast_total_L bar total_L
    let vpsd_L := eDiv (some (fast_L - gamma_L)) (some (neutron_L - gamma_L))
    let gamma_R := psd_reader.gamma_fast_total_R bar total_R
    let neutron_R := psd_reader.neutron_fast_total_R bar total_R
    let vpsd_R := eDiv (some (fast_R - gamma_R)) (some (neutron_R - gamma_R))
    let gamma_L2 := psd_reader.gamma_vpsd_L bar pos
    let neutron_L2 := psd_reader.neutron_vpsd_L bar pos
    let gamma_R2 := psd_reader.gamma_vpsd_R bar pos
    let neutron_R2 := psd_reader.neutron_vpsd_R bar pos
    let xy1 := eSub vpsd_L (some gamma_L2)
    let xy2 := eSub vpsd_R (some gamma_R2)
    let gn1 := neutron_L2 - gamma_L2
    let gn2 := neutron_R2 - gamma_R2
    let rot1 := -gn2
    let rot2 := gn1
    let x0 := eDiv (eAdd (eMul xy1 (some gn1)) (eMul xy2 (some gn2)))
      (some (gn1 * gn1 + gn2 * gn2))
    let y0 := eDiv (eAdd (eMul xy1 (some rot1)) (eMul xy2 (some rot2)))
      (some (rot1 * rot1 + rot2 * rot2))
    let x := eSub x0 (some (psd_reader.pca_mean bar).1)
    let y := eSub y0 (some (psd_reader.pca_mean bar).2)
    let pca_matrix := psd_reader.pca_components bar
    let pca_x := eAdd (eMul (some pca_matrix.1.1) x) (eMul (some pca_matrix.1.2) y)
    let pca_y := eAdd (eMul (some pca_matrix.2.1) x) (eMul (some pca_matrix.2.2) y)
    let xpeaks := psd_reader.pca_xpeaks bar
    let ppsd := eDiv (eSub x (some xpeaks.1)) (some (xpeaks.2 - xpeaks.1))
    let ppsd_perp := y
    (ppsd, ppsd_perp)

/-- Claim-side formula for C7, following the spec's words: the same
transform but with no reference at all to `pca_components` — the returned
pair is built from the pre-rotation, mean-subtracted coordinates only,
with `pid_score = (x - xpeaks[0]) / (xpeaks[1] - xpeaks[0])` and
`pid_score_perp = y`. -/
def psd_pre_rotation (psd_reader : NWPulseShapeDiscriminationParamReader) (bar : Int)
    (total_L total_R fast_L fast_R pos : ℚ) : EDouble × EDouble :=
  if bad_psd_input total_L total_R fast_L fast_R pos then
    (some (-9999 : ℚ), some (-9999 : ℚ))
  else
    let gamma_L := psd_reader.gamma_fast_total_L bar total_L
    let neutron_L := psd_reader.neutron_fast_total_L bar total_L
    let vpsd_L := eDiv (some (fast_L - gamma_L)) (some (neutron_L - gamma_L))
    let gamma_R := psd_reader.gamma_fast_total_R bar total_R
    let neutron_R := psd_reader.neutron_fast_total_R bar total_R
    let vpsd_R := eDiv (some (fast_R - gamma_R)) (some (neutron_R - gamma_R))
    let gamma_L2 := psd_reader.gamma_vpsd_L bar pos
    let neutron_L2 := psd_reader.neutron_vpsd_L bar pos
    let gamma_R2 := psd_reader.gamma_vpsd_R bar pos
    let neutron_R2 := psd_reader.neutron_vpsd_R bar pos
    let xy1 := eSub vpsd_L (some gamma_L2)
    let xy2 := eSub vpsd_R (some gamma_R2)
    let gn1 := neutron_L2 - gamma_L2
    let gn2 := neutron_R2 - gamma_R2
    let rot1 := -gn2
    let rot2 := gn1
    let x0 := eDiv (eAdd (eMul xy1 (some gn1)) (eMul xy2 (some gn2)))
      (some (gn1 * gn1 + gn2 * gn2))
    let y0 := eDiv (eAdd (eMul xy1 (some rot1)) (eMul xy2 (some rot2)))
      (some (rot1 * rot1 + rot2 * rot2))
    let x := eSub x0 (some (psd_reader.pca_mean bar).1)
    let y := eSub y0 (some (psd_reader.pca_mean bar).2)
    let xpeaks := psd_reader.pca_xpeaks bar
    let ppsd := eDiv (eSub x (some xpeaks.1)) (some (xpeaks.2 - xpeaks.1))
    let ppsd_perp := y
    (ppsd, ppsd_perp)

/-- Method `NWPulseShapeDiscriminationParamReader::polynomial`: evaluate the
coefficient list as a polynomial,
`y = 0; for i in [0, size): y += params[i] * pow(x, i)`. -/
def polynomial (x : ℚ) (params : List ℚ) : ℚ :=
  (List.range params.length).foldl (fun y i => y + params.getD i 0 * x ^ i) 0

/-- Method `NWPulseShapeDiscriminationParamReader::get_neutron_linear_params`:
from quadratic coefficients `quad[0], quad[1], quad[2]` build the linear
extension at `x_switch_neutron`:
`lin1 = quad[1] + 2*quad[2]*x` and
`lin0 = quad[0] + quad[1]*x + quad[2]*x^2 - lin1*x`.
The source indexes `quad[0..2]` of a `std::vector` unchecked; a list with
fewer than three coefficients is an out-of-bounds read, embedded as the
`none` branch. -/
def get_neutron_linear_params (x_switch_neutron : ℚ) : List ℚ → Option (List ℚ)
  | q0 :: q1 :: q2 :: _ =>
    let lin1 := q1 + 2 * q2 * x_switch_neutron
    let lin0 := q0 + q1 * x_switch_neutron + q2 * x_switch_neutron ^ 2 - lin1 * x_switch_neutron
    some [lin0, lin1]
  | _ => none

/-- The uniform sampling grid of
`NWPulseShapeDiscriminationParamReader::fast_total_interpolation`:
`for (double total = -20.0; total <= 4020.0; total += 20.0)` — the 203
values `-20, 0, 20, ..., 4020` (all exactly representable as doubles, so
the accumulation is exact). -/
def psd_totals : List ℚ := (List.range 203).map (fun k => -20 + 20 * (k : ℚ))

/-- The neutron fast-vs-total sampling loop of
`fast_total_interpolation` (either side): `_params` is a reference into
`params["n_cfast_L"]` (resp. `_R`), so the assignment
`_params = get_neutron_linear_params(x_switch, _params)` performed at each
grid point at or above `x_switch_neutron` persists into later iterations;
the mutation is modelled by threading the current coefficient list, and
the out-of-bounds read inside `get_neutron_linear_params` by the `none`
branch.  Each sample is
`polynomial(total, cline) + polynomial(total, _params)`. -/
def neutronFasts (x_switch : ℚ) (cline : List ℚ) : List ℚ → List ℚ → Option (List ℚ)
  | _params, [] => some []
  | _params, t :: ts =>
    if x_switch ≤ t then
      match get_neutron_linear_params x_switch _params with
      | none => none
      | some ps =>
        (neutronFasts x_switch cline ps ts).map
          (fun rest => (polynomial t cline + polynomial t ps) :: rest)
    else
      (neutronFasts x_switch cline _params ts).map
        (fun rest => (polynomial t cline + polynomial t _params) :: rest)

/-- Method `NWPulseShapeDiscriminationParamReader::get_bar_params`: scan the
bar's run-range records in stored order for the first whose range contains
`run`; if none matches, print
`"Cannot find run %04d for NW%c-bar%02d"` and `exit(1)` — embedded as the
`Except.error` branch carrying the diagnostic's `(run, bar)`. -/
def get_bar_params {P : Type} (database : Int → List (ValidityRecord P))
    (run bar : Int) : Except (Int × Int) (ValidityRecord P) :=
  match resolveRecord run (database bar) with
  | some rec => Except.ok rec
  | none => Except.error (run, bar)

/-- The per-bar loop of `NWPulseShapeDiscriminationParamReader::load`:
for each bar, `get_bar_params` resolves the bar's record (aborting the
whole load via `exit(1)` — the `Except.error` branch — when no record
matches), and the resolved records seed that bar's curve and PCA data. -/
def psd_load {P : Type} (database : Int → List (ValidityRecord P)) (run : Int) :
    List Int → Except (Int × Int) (List (Int × ValidityRecord P))
  | [] => Except.ok []
  | bar :: rest =>
    match get_bar_params database run bar with
    | Except.error e => Except.error e
    | Except.ok rec =>
      match psd_load database run rest with
      | Except.error e => Except.error e
      | Except.ok others => Except.ok ((bar, rec) :: others)

/-- Method `NWTimeOfFlightCalibParamReader::load`: for every bar of the database,
scan its records in stored order; on the first whose range contains `run`,
set that bar's `tof_offset`; if none matches, print
`"ERROR: run-%04d is not found for NW%c bar%02d"` to `cerr` and continue
with the remaining bars.  Returns the resolved offsets together with the
list of `(run, bar)` warnings emitted. -/
def tof_load : List (Int × List (ValidityRecord ℚ)) → Int → List (Int × ℚ) × List (Int × Int)
  | [], _ => ([], [])
  | (bar, series) :: rest, run =>
    let r := tof_load rest run
    match resolveRecord run series with
    | some rec => ((bar, rec.payload) :: r.1, r.2)
    | none => (r.1, (run, bar) :: r.2)

/-- A concrete reader with flat curves, used to instantiate theorems at
explicit inputs. -/
def demoReader : NWPulseShapeDiscriminationParamReader :=
  ⟨fun _ _ => 400, fun _ _ => 600, fun _ _ => 400, fun _ _ => 600,
   fun _ _ => 0, fun _ _ => 1, fun _ _ => 0, fun _ _ => 1,
   fun _ => (0, 0), fun _ => ((1, 0), (0, 1)), fun _ => (0, 1)⟩

/-- A concrete reader whose neutron and gamma fast-vs-total curves
coincide (degenerate calibration). -/
def demoDegenReader : NWPulseShapeDiscriminationParamReader :=
  ⟨fun _ _ => 400, fun _ _ => 400, fun _ _ => 400, fun _ _ => 400,
   fun _ _ => 0, fun _ _ => 1, fun _ _ => 0, fun _ _ => 1,
   fun _ => (0, 0), fun _ => ((1, 0), (0, 1)), fun _ => (0, 1)⟩

/-- A concrete position-calibration store holding the spec's end-to-end
scenario constants `p0 = 5.0`, `p1 = 0.02` for bar 1. -/
def demo_pcalib : NWPositionCalibParamReader :=
  ⟨[((1, "p0"), 5), ((1, "p1"), 1 / 50)]⟩

@[simp] theorem eAdd_none_left (b : EDouble) : eAdd none b = none := rfl

@[simp] theorem eAdd_none_right (a : EDouble) : eAdd a none = none := by
  cases a <;> rfl

@[simp] theorem eSub_none_left (b : EDouble) : eSub none b = none := rfl

@[simp] theorem eMul_none_left (b : EDouble) : eMul none b = none := rfl

@[simp] theorem eDiv_none_left (b : EDouble) : eDiv none b = none := rfl

@[simp] theorem eDiv_some_zero (a : EDouble) : eDiv a (some 0) = none := by
  cases a with
  | none => rfl
  | some x => simp [eDiv]

/-- C1: if any of `total_L, total_R, fast_L, fast_R` is `< 0` or `> 4097`,
or `position` is outside `[-120, 120]`, then `get_psd` returns exactly the
pair `(-9999, -9999)`; the gate is decided before any curve evaluation
(the result on gated inputs is independent of every curve and parameter of
the reader); and inputs exactly at the boundaries `0`, `4097`, `-120`,
`120` pass the gate. -/
theorem C1_validity_gate :
    (∀ (r : NWPulseShapeDiscriminationParamReader) (bar : Int)
        (total_L total_R fast_L fast_R pos : ℚ),
      bad_psd_input total_L total_R fast_L fast_R pos →
      get_psd r bar total_L total_R fast_L fast_R pos =
        (some (-9999 : ℚ), some (-9999 : ℚ))) ∧
    (∀ (r1 r2 : NWPulseShapeDiscriminationParamReader) (bar : Int)
        (total_L total_R fast_L fast_R pos : ℚ),
      bad_psd_input total_L total_R fast_L fast_R pos →
      get_psd r1 bar total_L total_R fast_L fast_R pos =
        get_psd r2 bar total_L total_R fast_L fast_R pos) ∧
    (¬ bad_psd_input 0 0 0 0 (-120)) ∧ (¬ bad_psd_input 4097 4097 4097 4097 120) := by
  have hgate : ∀ (r : NWPulseShapeDiscriminationParamReader) (bar : Int)
      (tL tR fL fR pos : ℚ), bad_psd_input tL tR fL fR pos →
      get_psd r bar tL tR fL fR pos = (some (-9999 : ℚ), some (-9999 : ℚ)) := by
    intro r bar tL tR fL fR pos h
    unfold get_psd
    rw [if_pos h]
  refine ⟨hgate, ?_, by norm_num [bad_psd_input], by norm_num [bad_psd_input]⟩
  intro r1 r2 bar tL tR fL fR pos h
  rw [hgate r1 bar tL tR fL fR pos h, hgate r2 bar tL tR fL fR pos h]

/-- Witness for C1 at a concrete gated input (`total_L = -1`). -/
theorem C1_validity_gate_witness :
    bad_psd_input (-1) 0 0 0 0 ∧
    get_psd demoReader 1 (-1) 0 0 0 0 = (some (-9999 : ℚ), some (-9999 : ℚ)) :=
  ⟨by norm_num [bad_psd_input],
   C1_validity_gate.1 demoReader 1 (-1) 0 0 0 0 (by norm_num [bad_psd_input])⟩

/-- C2: the claim states `get_position` returns
`p0 + p1 * (time_L - time_R)` with `p0`, `p1` the scalars resolved by the
store.  The code stores both scalars into `int` locals, truncating them
toward zero.  At the spec's own end-to-end scenario (`p0 = 5.0`,
`p1 = 0.02`, `time_L = 100`, `time_R = 80`) the code yields `5` while the
claimed formula yields `27/5 = 5.4`. -/
theorem C2_position_truncates_params :
    get_position demo_pcalib 1 100 80 = 5 ∧
    (demo_pcalib.get 1 "p0").1 +
      ((demo_pcalib.get 1 "p0").2.get 1 "p1").1 * (100 - 80) = 27 / 5 ∧
    (5 : ℚ) ≠ 27 / 5 := by
  have e0 : (demo_pcalib.get 1 "p0").1 = 5 := rfl
  have e1 : ((demo_pcalib.get 1 "p0").2.get 1 "p1").1 = 1 / 50 := rfl
  refine ⟨?_, by rw [e0, e1]; norm_num, by norm_num⟩
  have key : get_position demo_pcalib 1 100 80 =
      ((truncToInt 5 : Int) : ℚ) + ((truncToInt (1 / 50) : Int) : ℚ) * (100 - 80) := rfl
  have hn5 : ((5 : ℚ)).num = 5 := by norm_num
  have hd5 : ((5 : ℚ)).den = 1 := by norm_num
  have hn : ((1 : ℚ) / 50).num = 1 := by norm_num
  have hd : ((1 : ℚ) / 50).den = 50 := by norm_num
  have t5 : truncToInt 5 = 5 := by rw [truncToInt, hn5, hd5]; decide
  have t0 : truncToInt (1 / 50) = 0 := by rw [truncToInt, hn, hd]; decide
  rw [key, t5, t0]
  norm_num

/-- C3: for every run and unit, if at least one validity record of the
unit's series matches, the scan resolves exactly the first matching record
in stored order (even when several ranges contain the run); the same holds
through `get_bar_params` and through the position-calibration `load`,
which stores that record's two parameters. -/
theorem C3_first_match_wins :
    (∀ (P : Type) (run : Int) (pre post : List (ValidityRecord P)) (rec : ValidityRecord P),
      (∀ r ∈ pre, ¬(r.run_start ≤ run ∧ run ≤ r.run_end)) →
      rec.run_start ≤ run → run ≤ rec.run_end →
      resolveRecord run (pre ++ rec :: post) = some rec) ∧
    (∀ (P : Type) (database : Int → List (ValidityRecord P)) (run bar : Int)
        (pre post : List (ValidityRecord P)) (rec : ValidityRecord P),
      database bar = pre ++ rec :: post →
      (∀ r ∈ pre, ¬(r.run_start ≤ run ∧ run ≤ r.run_end)) →
      rec.run_start ≤ run → run ≤ rec.run_end →
      get_bar_params database run bar = Except.ok rec) ∧
    (∀ (run b : Int) (pre post : List (ValidityRecord (ℚ × ℚ)))
        (rec : ValidityRecord (ℚ × ℚ)) (s : NWPositionCalibParamReader),
      (∀ r ∈ pre, ¬(r.run_start ≤ run ∧ run ≤ r.run_end)) →
      rec.run_start ≤ run → run ≤ rec.run_end →
      NWPositionCalibParamReader.load [(b, pre ++ rec :: post)] run s =
        ⟨setParam (setParam s.param (b, "p0") rec.payload.1) (b, "p1") rec.payload.2⟩) := by
  have hres : ∀ (P : Type) (run : Int) (pre post : List (ValidityRecord P))
      (rec : ValidityRecord P),
      (∀ r ∈ pre, ¬(r.run_start ≤ run ∧ run ≤ r.run_end)) →
      rec.run_start ≤ run → run ≤ rec.run_end →
      resolveRecord run (pre ++ rec :: post) = some rec := by
    intro P run pre post rec hpre h1 h2
    induction pre with
    | nil =>
      simp only [List.nil_append, resolveRecord]
      rw [if_pos ⟨h1, h2⟩]
    | cons p ps ih =>
      have hp := hpre p (List.mem_cons_self p ps)
      simp only [List.cons_append, resolveRecord, if_neg hp]
      exact ih (fun r hr => hpre r (List.mem_cons_of_mem p hr))
  refine ⟨hres, ?_, ?_⟩
  · intro P database run bar pre post rec hdb hpre h1 h2
    unfold get_bar_params
    rw [hdb, hres P run pre post rec hpre h1 h2]
  · intro run b pre post rec s hpre h1 h2
    unfold NWPositionCalibParamReader.load
    simp [hres (ℚ × ℚ) run pre post rec hpre h1 h2]

/-- Witness for C3: run 10; the first record in stored order has the wide
range `[0, 100]` and wins over the later, narrower record `[9, 11]` that
also contains the run; the leading record `[20, 30]` does not match. -/
theorem C3_first_match_wins_witness :
    resolveRecord (10 : Int)
      [⟨20, 30, (1 : ℚ)⟩, ⟨0, 100, (2 : ℚ)⟩, ⟨9, 11, (3 : ℚ)⟩] = some ⟨0, 100, (2 : ℚ)⟩ :=
  C3_first_match_wins.1 ℚ 10 [⟨20, 30, (1 : ℚ)⟩] [⟨9, 11, (3 : ℚ)⟩] ⟨0, 100, (2 : ℚ)⟩
    (by decide) (by decide) (by decide)

/-- C4: a `get` on a never-populated `(unit, key)` pair returns the numeric
value 0 and signals no error (it is a total function). -/
theorem C4_silent_zero_default :
    ∀ (s : NWPositionCalibParamReader) (bar : Int) (par : String),
      lookupParam s.param (bar, par) = none →
      (NWPositionCalibParamReader.get s bar par).1 = 0 := by
  intro s bar par h
  simp [NWPositionCalibParamReader.get, h]

/-- Witness for C4 on the empty store. -/
theorem C4_silent_zero_default_witness :
    lookupParam (([] : List ((Int × String) × ℚ))) (7, "p0") = none ∧
    (NWPositionCalibParamReader.get ⟨[]⟩ 7 "p0").1 = 0 :=
  ⟨rfl, C4_silent_zero_default ⟨[]⟩ 7 "p0" rfl⟩

/-- C5: the linear coefficients returned by `get_neutron_linear_params`
match the quadratic segment's value and first derivative at `x_switch`
exactly: `l0 + l1*s = q0 + q1*s + q2*s^2` and `l1 = q1 + 2*q2*s`. -/
theorem C5_c1_continuity :
    ∀ (x_switch q0 q1 q2 : ℚ) (qrest : List ℚ),
      ∃ l0 l1 : ℚ,
        get_neutron_linear_params x_switch (q0 :: q1 :: q2 :: qrest) = some [l0, l1] ∧
        l0 + l1 * x_switch = q0 + q1 * x_switch + q2 * x_switch ^ 2 ∧
        l1 = q1 + 2 * q2 * x_switch := by
  intro x q0 q1 q2 qrest
  exact ⟨_, _, rfl, by ring, rfl⟩

/-- C6: on an in-gate input whose neutron and gamma fast-vs-total curves
coincide at the observed total charge, `get_psd` divides by zero
unguarded: the returned `pid_score` is non-finite (`none`), and the result
is neither an error (the function is total) nor the sentinel pair. -/
theorem C6_degenerate_nonfinite :
    ∀ (r : NWPulseShapeDiscriminationParamReader) (bar : Int)
        (total_L total_R fast_L fast_R pos : ℚ),
      ¬ bad_psd_input total_L total_R fast_L fast_R pos →
      r.neutron_fast_total_L bar total_L = r.gamma_fast_total_L bar total_L →
      (get_psd r bar total_L total_R fast_L fast_R pos).1 = none ∧
      get_psd r bar total_L total_R fast_L fast_R pos ≠
        (some (-9999 : ℚ), some (-9999 : ℚ)) := by
  intro r bar tL tR fL fR pos hgate hdeg
  have h1 : (get_psd r bar tL tR fL fR pos).1 = none := by
    unfold get_psd
    rw [if_neg hgate]
    simp only [hdeg, sub_self, eDiv_some_zero, eSub_none_left, eMul_none_left,
      eAdd_none_left, eDiv_none_left]
  refine ⟨h1, fun hc => ?_⟩
  rw [hc] at h1
  exact Option.noConfusion h1

/-- Witness for C6 on a reader with coinciding flat curves. -/
theorem C6_degenerate_nonfinite_witness :
    ¬ bad_psd_input 1000 1000 500 500 0 ∧
    (get_psd demoDegenReader 1 1000 1000 500 500 0).1 = none :=
  ⟨by norm_num [bad_psd_input],
   (C6_degenerate_nonfinite demoDegenReader 1 1000 1000 500 500 0
     (by norm_num [bad_psd_input]) rfl).1⟩

/-- C7: the returned pair is built only from the pre-rotation,
mean-subtracted coordinates: `get_psd` agrees everywhere with the formula
`psd_pre_rotation`, which never mentions `pca_components`, and two readers
differing only in `pca_components` return identical results on every
input. -/
theorem C7_rotation_not_applied :
    (∀ (r : NWPulseShapeDiscriminationParamReader) (M : Int → (ℚ × ℚ) × (ℚ × ℚ))
        (bar : Int) (total_L total_R fast_L fast_R pos : ℚ),
      get_psd { r with pca_components := M } bar total_L total_R fast_L fast_R pos =
        get_psd r bar total_L total_R fast_L fast_R pos) ∧
    (∀ (r : NWPulseShapeDiscriminationParamReader) (bar : Int)
        (total_L total_R fast_L fast_R pos : ℚ),
      get_psd r bar total_L total_R fast_L fast_R pos =
        psd_pre_rotation r bar total_L total_R fast_L fast_R pos) :=
  ⟨fun _ _ _ _ _ _ _ _ => rfl, fun _ _ _ _ _ _ _ => rfl⟩

/-- Concatenating time-of-flight databases concatenates resolved offsets
and warnings. -/
theorem tof_load_append (l1 l2 : List (Int × List (ValidityRecord ℚ))) (run : Int) :
    tof_load (l1 ++ l2) run =
      ((tof_load l1 run).1 ++ (tof_load l2 run).1,
       (tof_load l1 run).2 ++ (tof_load l2 run).2) := by
  induction l1 with
  | nil => simp [tof_load]
  | cons hd tl ih =>
    obtain ⟨bar, series⟩ := hd
    cases h : resolveRecord run series with
    | none => simp [tof_load, h, ih]
    | some rec => simp [tof_load, h, ih]

/-- C8: when no validity record matches a (unit, run) pair, the
particle-ID reader's load aborts fatally (the `Except.error` branch,
carrying the diagnostic's run and the failing unit), while the
time-of-flight reader's load records a warning naming the run and unit,
leaves that unit's offset unresolved, and still processes every other
unit. -/
theorem C8_unresolved_run_policies :
    (∀ (P : Type) (database : Int → List (ValidityRecord P)) (run : Int)
        (bars : List Int) (b : Int),
      b ∈ bars → resolveRecord run (database b) = none →
      ∃ b', b' ∈ bars ∧ resolveRecord run (database b') = none ∧
        psd_load database run bars = Except.error (run, b')) ∧
    (∀ (run : Int) (pre post : List (Int × List (ValidityRecord ℚ))) (b : Int)
        (series : List (ValidityRecord ℚ)),
      resolveRecord run series = none →
      tof_load (pre ++ (b, series) :: post) run =
        ((tof_load pre run).1 ++ (tof_load post run).1,
         (tof_load pre run).2 ++ (run, b) :: (tof_load post run).2)) := by
  constructor
  · intro P database run bars
    induction bars with
    | nil => intro b hb; exact absurd hb (List.not_mem_nil b)
    | cons bar rest ih =>
      intro b hb hnone
      by_cases hres : resolveRecord run (database bar) = none
      · refine ⟨bar, List.mem_cons_self bar rest, hres, ?_⟩
        simp [psd_load, get_bar_params, hres]
      · obtain ⟨rec, hrec⟩ := Option.ne_none_iff_exists'.mp hres
        have hbrest : b ∈ rest := by
          rcases List.mem_cons.mp hb with h | h
          · subst h; exact absurd hnone hres
          · exact h
        obtain ⟨b', hb', hn', heq⟩ := ih b hbrest hnone
        refine ⟨b', List.mem_cons_of_mem bar hb', hn', ?_⟩
        simp [psd_load, get_bar_params, hrec, heq]
  · intro run pre post b series hnone
    rw [tof_load_append]
    simp [tof_load, hnone]

/-- Witness for C8: a run covered by no record makes the particle-ID load
abort with the diagnostic `(run, bar)`, while the time-of-flight load
returns no offset for the bar and a warning `(run, bar)`. -/
theorem C8_unresolved_run_policies_witness :
    psd_load (fun _ => ([] : List (ValidityRecord ℚ))) 1 [5] =
      Except.error ((1 : Int), (5 : Int)) ∧
    tof_load [((3 : Int), ([] : List (ValidityRecord ℚ)))] 1 =
      ([], [((1 : Int), (3 : Int))]) := by
  constructor
  · obtain ⟨b', hb', -, heq⟩ :=
      C8_unresolved_run_policies.1 ℚ (fun _ => []) 1 [5] 5 (List.mem_singleton.mpr rfl) rfl
    have hb5 : b' = 5 := List.mem_singleton.mp hb'
    subst hb5
    exact heq
  · have h := C8_unresolved_run_policies.2 1 [] [] 3 [] rfl
    simpa [tof_load] using h

/-- C9: after load the store is immutable: a sequence of `get` calls, in
any order, leaves the store's state unchanged, and every later `get`
returns the same value as the first. -/
theorem C9_store_immutable :
    ∀ (s : NWPositionCalibParamReader) (ks : List (Int × String)) (bar : Int) (par : String),
      applyGets s ks = s ∧
      (NWPositionCalibParamReader.get (applyGets s ks) bar par).1 =
        (NWPositionCalibParamReader.get s bar par).1 := by
  intro s ks bar par
  have h : applyGets s ks = s := by
    induction ks generalizing s with
    | nil => rfl
    | cons k ks ih => exact ih s
  exact ⟨h, by rw [h]⟩

/-- Once the threaded coefficient list has collapsed to the 2-element
linear list, any further grid point at or above `x_switch` makes the
sampling loop hit the out-of-bounds branch. -/
theorem neutronFasts_linear_none (x_switch : ℚ) (cline : List ℚ) (l0 l1 : ℚ)
    (totals : List ℚ) :
    (∃ t ∈ totals, x_switch ≤ t) →
    neutronFasts x_switch cline [l0, l1] totals = none := by
  induction totals with
  | nil => intro h; simp at h
  | cons t ts ih =>
    intro h
    by_cases hx : x_switch ≤ t
    · simp [neutronFasts, hx, get_neutron_linear_params]
    · obtain ⟨t', ht', hxt'⟩ := h
      rcases List.mem_cons.mp ht' with rfl | hmem
      · exact absurd hxt' hx
      · simp [neutronFasts, hx, ih ⟨t', hmem, hxt'⟩]

/-- With at least two distinct grid points at or above `x_switch`, the
first one rewrites the coefficient list to the 2-element linear list and
the second one reads index 2 of it: the whole loop returns `none`. -/
theorem neutronFasts_two_hits (x_switch : ℚ) (cline : List ℚ) (q0 q1 q2 : ℚ)
    (qrest : List ℚ) (totals : List ℚ) :
    (∃ t1 ∈ totals, ∃ t2 ∈ totals, t1 ≠ t2 ∧ x_switch ≤ t1 ∧ x_switch ≤ t2) →
    neutronFasts x_switch cline (q0 :: q1 :: q2 :: qrest) totals = none := by
  induction totals with
  | nil => intro h; simp at h
  | cons t ts ih =>
    intro h
    obtain ⟨t1, ht1, t2, ht2, hne, hx1, hx2⟩ := h
    by_cases hx : x_switch ≤ t
    · have hrest : ∃ t' ∈ ts, x_switch ≤ t' := by
        rcases List.mem_cons.mp ht1 with rfl | h1
        · rcases List.mem_cons.mp ht2 with rfl | h2
          · exact absurd rfl hne
          · exact ⟨t2, h2, hx2⟩
        · exact ⟨t1, h1, hx1⟩
      have hsome : get_neutron_linear_params x_switch (q0 :: q1 :: q2 :: qrest) =
          some [q0 + q1 * x_switch + q2 * x_switch ^ 2 -
                  (q1 + 2 * q2 * x_switch) * x_switch,
                q1 + 2 * q2 * x_switch] := rfl
      simp only [neutronFasts, if_pos hx, hsome]
      rw [neutronFasts_linear_none x_switch cline _ _ ts hrest]
      rfl
    · have hall : ∃ t1 ∈ ts, ∃ t2 ∈ ts, t1 ≠ t2 ∧ x_switch ≤ t1 ∧ x_switch ≤ t2 := by
        rcases List.mem_cons.mp ht1 with rfl | h1
        · exact absurd hx1 hx
        rcases List.mem_cons.mp ht2 with rfl | h2
        · exact absurd hx2 hx
        exact ⟨t1, h1, t2, h2, hne, hx1, hx2⟩
      simp only [neutronFasts, if_neg hx]
      rw [ih hall]
      rfl

/-- C10: on the sampling grid `-20, 0, ..., 4020`, whenever at least two
grid points lie at or above `x_switch_neutron`, the neutron curve build
invokes `get_neutron_linear_params` a second time on the 2-element list
produced by the first invocation; that invocation reads index 2 of a
2-element coefficient vector, so the error branch of the total embedding
is reachable: the whole sampling loop returns `none`. -/
theorem C10_neutron_params_oob :
    ∀ (x_switch : ℚ) (cline : List ℚ) (q0 q1 q2 : ℚ) (qrest : List ℚ),
      (∃ t1 ∈ psd_totals, ∃ t2 ∈ psd_totals, t1 ≠ t2 ∧ x_switch ≤ t1 ∧ x_switch ≤ t2) →
      (∀ l0 l1 : ℚ, get_neutron_linear_params x_switch [l0, l1] = none) ∧
      neutronFasts x_switch cline (q0 :: q1 :: q2 :: qrest) psd_totals = none := by
  intro x cline q0 q1 q2 qrest h
  exact ⟨fun _ _ => rfl, neutronFasts_two_hits x cline q0 q1 q2 qrest psd_totals h⟩

/-- Witness for C10: with `x_switch = 2000` the grid points `4000` and
`4020` both lie above the switch, so the loop fails. -/
theorem C10_neutron_params_oob_witness :
    neutronFasts 2000 [0] (1 :: 1 :: 1 :: []) psd_totals = none := by
  have h4000 : (4000 : ℚ) ∈ psd_totals := by
    have hr : (201 : ℕ) ∈ List.range 203 := List.mem_range.mpr (by norm_num)
    have h201 : (-20 + 20 * ((201 : ℕ) : ℚ)) ∈ psd_totals :=
      List.mem_map_of_mem (fun k : ℕ => -20 + 20 * (k : ℚ)) hr
    have he : (-20 + 20 * ((201 : ℕ) : ℚ)) = 4000 := by norm_num
    rw [he] at h201
    exact h201
  have h4020 : (4020 : ℚ) ∈ psd_totals := by
    have hr : (202 : ℕ) ∈ List.range 203 := List.mem_range.mpr (by norm_num)
    have h202 : (-20 + 20 * ((202 : ℕ) : ℚ)) ∈ psd_totals :=
      List.mem_map_of_mem (fun k : ℕ => -20 + 20 * (k : ℚ)) hr
    have he : (-20 + 20 * ((202 : ℕ) : ℚ)) = 4020 := by norm_num
    rw [he] at h202
    exact h202
  have h : ∃ t1 ∈ psd_totals, ∃ t2 ∈ psd_totals,
      t1 ≠ t2 ∧ (2000 : ℚ) ≤ t1 ∧ (2000 : ℚ) ≤ t2 :=
    ⟨4000, h4000, 4020, h4020, by norm_num, by norm_num, by norm_num⟩
  exact (C10_neutron_params_oob 2000 [0] 1 1 1 [] h).2
